import Mathlib

/-!
Verification of the VirtualWatchdog driver (`src/drivers/VirtualWatchdog.h`):
a software multiplexer letting several independent logical clients share one
physical hardware watchdog.  The repository ships only the class declaration
(`VirtualWatchdog.h`); the method bodies live outside `src/`, so every
operation below is modelled from the specification (`spec.md`, §3–§4), which
describes the data model (client handles with `timeout`, `name`,
`remaining_ticks`, `active`, intrusive `next` link), the registry, the
supervision loop `process`, and the lifecycle operations
construct/start/stop/kick/destructor.
-/

namespace VirtualWatchdog

/-- Modelled from the spec: the external collaborators' parameters.
`hwMin`/`hwMax` are the Hardware Watchdog Adapter's supported minimum and
maximum timeout (spec §6); `tickPeriod` is the Shared Tick Source's fixed
period used to compute each client's tick budget (spec §3, §4.1). -/
structure Config where
  hwMin : Nat
  hwMax : Nat
  tickPeriod : Nat
deriving DecidableEq

/-- Modelled from the spec: one Client Handle (spec §3).  `id` stands for the
handle's identity (the C++ object's address: the registry links handles by
identity, `_next` in the header).  `timeout` and `name` are the constructor
arguments (`_timeout`, `_name`); `budget` is the tick budget computed at
start(); `remaining_ticks` is the countdown aged by the supervision loop
(`_current_count`); `active` is the started/stopped flag (`_is_initialized`). -/
structure Client where
  id : Nat
  timeout : Nat
  name : Option String
  budget : Nat
  remaining_ticks : Nat
  active : Bool
deriving DecidableEq

/-- Modelled from the spec: the process-wide state (spec §3 "Registry").
`clients` holds every constructed, not yet destroyed handle; `registry` is the
intrusive singly linked list of started handles anchored at `_first` (head =
most recent insert, spec §4.3 insert-at-head); `nextId` models fresh object
addresses; `hwRunning` is `_is_hw_watchdog_running`; `tickerAttached` records
whether the Shared Tick Source (`_ticker`) is attached; `hwStartCount` and
`hwStopCount` count the calls made to the Hardware Watchdog Adapter's
start/stop primitives, so that "armed exactly once" is expressible. -/
structure State where
  clients : List Client
  registry : List Nat
  nextId : Nat
  hwRunning : Bool
  tickerAttached : Bool
  hwStartCount : Nat
  hwStopCount : Nat
deriving DecidableEq

/-- Modelled from the spec: outcome of a public operation (spec §7).  A
configuration error is reported synchronously to the caller with no state
mutated (the carried state is the state left behind); a precondition
violation is a fatal assertion (`MBED_ASSERT`), not a recoverable result, so
it carries no continuation state. -/
inductive Outcome (α : Type) where
  | ok : α → Outcome α
  | configError : α → Outcome α
  | fatalAssert : Outcome α
deriving DecidableEq

/-- Modelled from the spec: the tick budget computed from the handle's
`timeout` and the shared tick period (spec §4.1; §9 leaves the exact rule
open, we take the number of whole tick periods inside `timeout`). -/
def budgetOf (cfg : Config) (timeout : Nat) : Nat :=
  timeout / cfg.tickPeriod

/-- Look up a handle by identity among the constructed handles. -/
def State.lookup (st : State) (i : Nat) : Option Client :=
  st.clients.find? (fun c => c.id == i)

/-- Modelled from the spec: the constructor (spec §4.1).  Validates `timeout`
against the hardware watchdog's supported range and fails with a
configuration error if out of range, mutating nothing; otherwise records the
new handle with `active = false`, touching neither hardware nor the
registry.  The fresh `id` models the new object's address. -/
def construct (cfg : Config) (st : State) (timeout : Nat) (name : Option String) :
    Outcome State :=
  if timeout < cfg.hwMin ∨ cfg.hwMax < timeout then
    Outcome.configError st
  else
    Outcome.ok { st with
      clients := st.clients ++
        [{ id := st.nextId, timeout := timeout, name := name,
           budget := 0, remaining_ticks := 0, active := false }],
      nextId := st.nextId + 1 }

/-- Modelled from the spec: the constructor invoked with no arguments; the
header (`VirtualWatchdog.h` line 71) declares the defaults
`timeout = 1000, str = NULL`. -/
def constructDefault (cfg : Config) (st : State) : Outcome State :=
  construct cfg st 1000 none

/-- Modelled from the spec: the mutating core of start() on a handle `i`
known to exist and to be inactive (spec §4.1).  Computes the tick budget,
resets `remaining_ticks` to it, inserts the handle at the head of the
registry, sets `active`; if the hardware watchdog is not yet running, arms
it and attaches the Shared Tick Source (first start only). -/
def startCore (cfg : Config) (st : State) (i : Nat) (c : Client) : State :=
  let b := budgetOf cfg c.timeout
  let st1 : State := { st with
    clients := st.clients.map (fun d =>
      if d.id = i then { d with active := true, budget := b, remaining_ticks := b } else d),
    registry := i :: st.registry }
  if st1.hwRunning then st1
  else { st1 with
    hwRunning := true, tickerAttached := true,
    hwStartCount := st1.hwStartCount + 1 }

/-- Modelled from the spec: start() (spec §4.1).  A fatal assertion fires if
the handle is already active (header: "Assert for multiple calls of
start"). -/
def start (cfg : Config) (st : State) (i : Nat) : Outcome State :=
  match st.lookup i with
  | none => Outcome.fatalAssert
  | some c => if c.active then Outcome.fatalAssert else Outcome.ok (startCore cfg st i c)

/-- Modelled from the spec: the mutating core of stop() on a handle known to
be active (spec §4.1).  Removes the handle from the registry, clears
`active`; if the registry became empty, stops the hardware watchdog and
detaches the Shared Tick Source. -/
def stopCore (st : State) (i : Nat) : State :=
  let st1 : State := { st with
    clients := st.clients.map (fun d => if d.id = i then { d with active := false } else d),
    registry := st.registry.erase i }
  if st1.registry.isEmpty then
    { st1 with
      hwRunning := false, tickerAttached := false,
      hwStopCount := st1.hwStopCount + 1 }
  else st1

/-- Modelled from the spec: stop() (spec §4.1).  A fatal assertion fires if
the handle is not active (header: "Assert without calling start"). -/
def stop (st : State) (i : Nat) : Outcome State :=
  match st.lookup i with
  | none => Outcome.fatalAssert
  | some c => if c.active then Outcome.ok (stopCore st i) else Outcome.fatalAssert

/-- Modelled from the spec: kick() (spec §4.1).  A no-op on a handle that is
not active; otherwise resets the handle's own `remaining_ticks` to its full
budget and touches nothing else. -/
def kick (st : State) (i : Nat) : State :=
  { st with
    clients := st.clients.map (fun d =>
      if d.id = i ∧ d.active = true then { d with remaining_ticks := d.budget } else d) }

/-- Modelled from the spec: one client's ageing step inside the supervision
loop (spec §4.2 step 2): if `remaining_ticks > 0`, decrement it (saturating
at zero). -/
def tickClient (c : Client) : Client :=
  if 0 < c.remaining_ticks then { c with remaining_ticks := c.remaining_ticks - 1 } else c

/-- Modelled from the spec: the supervision-loop callback process()
(spec §4.2).  Walks every registered handle ageing its countdown, tracks
whether any registered handle reached or already sat at zero, and returns
the new state together with whether the Hardware Watchdog Adapter was
kicked: it is kicked exactly when no registered handle is at zero. -/
def process (st : State) : State × Bool :=
  let clients := st.clients.map (fun c => if c.id ∈ st.registry then tickClient c else c)
  let anyZero := clients.any (fun c => decide (c.id ∈ st.registry) && c.remaining_ticks == 0)
  ({ st with clients := clients }, !anyZero)

/-- Modelled from the spec: the end of a handle's lifetime removes its record
(the C++ object ceases to exist). -/
def destroyRecord (st : State) (i : Nat) : State :=
  { st with clients := st.clients.filter (fun d => d.id != i) }

/-- Modelled from the spec: the destructor (spec §4.1): if the handle is
still active it behaves as stop() first, then the handle's record goes
away. -/
def destruct (st : State) (i : Nat) : State :=
  match st.lookup i with
  | some c => if c.active then destroyRecord (stopCore st i) i else destroyRecord st i
  | none => destroyRecord st i

/-- One public operation of the driver's surface (spec §6). -/
inductive Op where
  | construct (timeout : Nat) (name : Option String)
  | constructDefault
  | start (i : Nat)
  | stop (i : Nat)
  | kick (i : Nat)
  | destruct (i : Nat)
  | tick
deriving DecidableEq

/-- Run one public operation (`tick` is the periodic process() callback). -/
def runOp (cfg : Config) (st : State) : Op → Outcome State
  | Op.construct t n => construct cfg st t n
  | Op.constructDefault => constructDefault cfg st
  | Op.start i => start cfg st i
  | Op.stop i => stop st i
  | Op.kick i => Outcome.ok (kick st i)
  | Op.destruct i => Outcome.ok (destruct st i)
  | Op.tick => Outcome.ok (process st).1

/-- Run a sequence of public operations, halting at the first error. -/
def runOps (cfg : Config) (st : State) : List Op → Outcome State
  | [] => Outcome.ok st
  | op :: ops =>
    match runOp cfg st op with
    | Outcome.ok st1 => runOps cfg st1 ops
    | e => e

/-- The state invariant (spec §3): a handle is linked in the registry iff its
`active` flag is true, no handle is linked twice, and every handle's
`remaining_ticks` lies in `[0, budget]`.  The first two conjuncts record that
handle identities are object addresses: all below the allocator's `nextId`
and pairwise distinct. -/
def WF (st : State) : Prop :=
  (∀ c ∈ st.clients, c.id < st.nextId) ∧
  (st.clients.map Client.id).Nodup ∧
  st.registry.Nodup ∧
  (∀ i ∈ st.registry, ∃ c ∈ st.clients, c.id = i ∧ c.active = true) ∧
  (∀ c ∈ st.clients, c.active = true → c.id ∈ st.registry) ∧
  (∀ c ∈ st.clients, c.remaining_ticks ≤ c.budget)

instance (st : State) : Decidable (WF st) := by
  unfold WF
  exact inferInstance

/-- One supervision round in a run: the scheduled clients call kick(), then
the periodic process() callback fires; yields the new state. -/
def roundState (st : State) (ks : List Nat) : State :=
  (process (ks.foldl kick st)).1

/-- Whether the hardware watchdog got kicked during that round. -/
def roundKicked (st : State) (ks : List Nat) : Bool :=
  (process (ks.foldl kick st)).2

/-- Iterate supervision rounds under a kick schedule: `sched n` lists the
clients that call kick() just before the n-th tick. -/
def runRounds (st : State) (sched : Nat → List Nat) : Nat → State
  | 0 => st
  | n + 1 => roundState (runRounds st sched n) (sched n)



/-- Sample configuration for concrete instantiations of the theorems. -/
def cfgA : Config := { hwMin := 10, hwMax := 10000, tickPeriod := 1 }

/-- The empty initial state: nothing constructed, hardware idle. -/
def stEmpty : State :=
  { clients := [], registry := [], nextId := 0, hwRunning := false,
    tickerAttached := false, hwStartCount := 0, hwStopCount := 0 }

/-- A started client with identity 0. -/
def clientA0 : Client :=
  { id := 0, timeout := 30, name := none, budget := 30, remaining_ticks := 12, active := true }

/-- A constructed but never started client with identity 1. -/
def clientB1 : Client :=
  { id := 1, timeout := 60, name := none, budget := 0, remaining_ticks := 0, active := false }

/-- A state with one active client (0) and one inactive client (1). -/
def stAB : State :=
  { clients := [clientA0, clientB1], registry := [0], nextId := 2, hwRunning := true,
    tickerAttached := true, hwStartCount := 1, hwStopCount := 0 }

/-- The state stAB after stop() on client 0: everything released. -/
def stC5a : State :=
  { clients := [{ clientA0 with active := false }, clientB1], registry := [], nextId := 2,
    hwRunning := false, tickerAttached := false, hwStartCount := 1, hwStopCount := 1 }

/-- The state stC5a after start() on client 1: re-armed from scratch. -/
def stC5b : State :=
  { clients := [{ clientA0 with active := false },
      { clientB1 with active := true, budget := 60, remaining_ticks := 60 }],
    registry := [1], nextId := 2, hwRunning := true, tickerAttached := true,
    hwStartCount := 2, hwStopCount := 1 }

/-- A lone started client that will never kick. -/
def clientStalled : Client :=
  { id := 0, timeout := 3, name := none, budget := 3, remaining_ticks := 3, active := true }

/-- A state containing only the stalled client. -/
def stStalled : State :=
  { clients := [clientStalled], registry := [0], nextId := 1, hwRunning := true,
    tickerAttached := true, hwStartCount := 1, hwStopCount := 0 }

/-- The empty kick schedule: nobody ever kicks. -/
def schedNone : Nat → List Nat := fun _ => []

/-- Two constructed clients, nothing started yet, hardware idle. -/
def stC3 : State :=
  { clients := [
      { id := 0, timeout := 50, name := none, budget := 0,
        remaining_ticks := 0, active := false },
      { id := 1, timeout := 70, name := none, budget := 0,
        remaining_ticks := 0, active := false }],
    registry := [], nextId := 2, hwRunning := false, tickerAttached := false,
    hwStartCount := 0, hwStopCount := 0 }

/-- The state stC3 after start() on client 0 and then on client 1. -/
def stC3sorted : State :=
  { clients := [
      { id := 0, timeout := 50, name := none, budget := 50,
        remaining_ticks := 50, active := true },
      { id := 1, timeout := 70, name := none, budget := 70,
        remaining_ticks := 70, active := true }],
    registry := [1, 0], nextId := 2, hwRunning := true, tickerAttached := true,
    hwStartCount := 1, hwStopCount := 0 }

/-- The state stC3 after start() on client 0 only. -/
def stC4next : State :=
  { clients := [
      { id := 0, timeout := 50, name := none, budget := 50,
        remaining_ticks := 50, active := true },
      { id := 1, timeout := 70, name := none, budget := 0,
        remaining_ticks := 0, active := false }],
    registry := [0], nextId := 2, hwRunning := true, tickerAttached := true,
    hwStartCount := 1, hwStopCount := 0 }

/-- C1: on every invocation of the supervision-loop callback process(), after
decrementing the registered clients' counters, the hardware watchdog kick is
issued if and only if no registered client's remaining_ticks counter is zero;
with at least one client at zero the kick is omitted. -/
theorem process_kicks_iff_no_zero (st : State) :
    (process st).2 = true ↔
      ∀ c ∈ (process st).1.clients, c.id ∈ st.registry → c.remaining_ticks ≠ 0 := by
  simp [process, Bool.not_eq_true', List.any_eq_false]


theorem tickClient_eq (c : Client) :
    tickClient c = { c with remaining_ticks := c.remaining_ticks - 1 } := by
  cases c with
  | mk id t n b r a =>
    unfold tickClient
    dsimp
    split
    · rfl
    · simp_all

theorem kick_registry (st : State) (i : Nat) : (kick st i).registry = st.registry := rfl

theorem foldl_kick_registry (st : State) (ks : List Nat) :
    (ks.foldl kick st).registry = st.registry := by
  induction ks generalizing st with
  | nil => rfl
  | cons k ks ih => simpa using ih (kick st k)

theorem mem_kick_of_ne (st : State) (i : Nat) (c : Client)
    (hc : c ∈ st.clients) (hne : c.id ≠ i) : c ∈ (kick st i).clients :=
  List.mem_map.mpr ⟨c, hc, by simp [hne]⟩

theorem mem_foldl_kick (st : State) (ks : List Nat) (c : Client)
    (hc : c ∈ st.clients) (hks : c.id ∉ ks) : c ∈ (ks.foldl kick st).clients := by
  induction ks generalizing st with
  | nil => exact hc
  | cons k ks ih =>
    simp only [List.foldl_cons]
    have hk : c.id ≠ k := by intro h; exact hks (h ▸ List.mem_cons_self k ks)
    exact ih (kick st k) (mem_kick_of_ne st k c hc hk) (fun h => hks (List.mem_cons_of_mem k h))

theorem mem_process (st : State) (c : Client)
    (hc : c ∈ st.clients) (hreg : c.id ∈ st.registry) :
    { c with remaining_ticks := c.remaining_ticks - 1 } ∈ (process st).1.clients :=
  List.mem_map.mpr ⟨c, hc, by simp [hreg, tickClient_eq]⟩

theorem roundState_registry (st : State) (ks : List Nat) :
    (roundState st ks).registry = st.registry := foldl_kick_registry st ks

theorem roundState_mem (st : State) (ks : List Nat) (c : Client)
    (hc : c ∈ st.clients) (hreg : c.id ∈ st.registry) (hks : c.id ∉ ks) :
    { c with remaining_ticks := c.remaining_ticks - 1 } ∈ (roundState st ks).clients := by
  have h1 : c ∈ (ks.foldl kick st).clients := mem_foldl_kick st ks c hc hks
  have hreg1 : c.id ∈ (ks.foldl kick st).registry := by
    rw [foldl_kick_registry]; exact hreg
  exact mem_process (ks.foldl kick st) c h1 hreg1

theorem runRounds_registry (st : State) (sched : Nat → List Nat) (n : Nat) :
    (runRounds st sched n).registry = st.registry := by
  induction n with
  | zero => rfl
  | succ n ih => rw [runRounds, roundState_registry]; exact ih

theorem runRounds_mem (st : State) (sched : Nat → List Nat) (c : Client) (n : Nat)
    (hc : c ∈ st.clients) (hreg : c.id ∈ st.registry) (hs : ∀ m, c.id ∉ sched m) :
    { c with remaining_ticks := c.remaining_ticks - n } ∈ (runRounds st sched n).clients := by
  induction n with
  | zero => exact hc
  | succ n ih =>
    have hregn : c.id ∈ (runRounds st sched n).registry := by
      rw [runRounds_registry]; exact hreg
    have h := roundState_mem (runRounds st sched n) (sched n)
      { c with remaining_ticks := c.remaining_ticks - n } ih hregn (hs n)
    rw [runRounds]
    simpa [Nat.sub_sub] using h

/-- C2: if a registered client with budget (and remaining_ticks) b never
calls kick() — its identity is absent from every tick's kick schedule, while
the other clients may kick on any schedule — then from the b-th supervision
tick on, the hardware watchdog is never kicked again: remaining_ticks
saturates at zero, so the stalled client suppresses feeding on every
subsequent tick. -/
theorem stalled_never_kicked (st : State) (sched : Nat → List Nat) (c : Client) (b : Nat)
    (hc : c ∈ st.clients) (hreg : c.id ∈ st.registry)
    (hb : c.budget = b) (hr : c.remaining_ticks = b)
    (hs : ∀ m, c.id ∉ sched m) :
    ∀ n, b ≤ n + 1 → roundKicked (runRounds st sched n) (sched n) = false := by
  intro n hn
  have hmem : { c with remaining_ticks := b - n } ∈ (runRounds st sched n).clients := by
    have h := runRounds_mem st sched c n hc hreg hs
    rwa [hr] at h
  have hregS : c.id ∈ (runRounds st sched n).registry := by
    rw [runRounds_registry]; exact hreg
  have h1 : { c with remaining_ticks := b - n } ∈
      ((sched n).foldl kick (runRounds st sched n)).clients :=
    mem_foldl_kick _ _ _ hmem (hs n)
  have hreg1 : c.id ∈ ((sched n).foldl kick (runRounds st sched n)).registry := by
    rw [foldl_kick_registry]; exact hregS
  unfold roundKicked process
  rw [Bool.not_eq_false']
  refine List.any_eq_true.mpr ?_
  refine ⟨(fun d => if d.id ∈ ((sched n).foldl kick (runRounds st sched n)).registry
      then tickClient d else d) { c with remaining_ticks := b - n },
    List.mem_map_of_mem _ h1, ?_⟩
  simp [hreg1, tickClient_eq]
  omega



theorem lookup_some (st : State) (i : Nat) (c : Client) (h : st.lookup i = some c) :
    c ∈ st.clients ∧ c.id = i := by
  unfold State.lookup at h
  exact ⟨List.mem_of_find?_eq_some h, by simpa using List.find?_some h⟩

theorem lookup_none (st : State) (i : Nat) (h : st.lookup i = none) :
    ∀ c ∈ st.clients, c.id ≠ i := by
  unfold State.lookup at h
  intro c hc
  have h2 := List.find?_eq_none.mp h c hc
  simpa using h2

theorem startCore_clients (cfg : Config) (st : State) (i : Nat) (c : Client) :
    (startCore cfg st i c).clients = st.clients.map (fun d =>
      if d.id = i then
        { d with active := true, budget := budgetOf cfg c.timeout,
                 remaining_ticks := budgetOf cfg c.timeout }
      else d) := by
  unfold startCore
  dsimp only
  split <;> rfl

theorem startCore_registry (cfg : Config) (st : State) (i : Nat) (c : Client) :
    (startCore cfg st i c).registry = i :: st.registry := by
  unfold startCore
  dsimp only
  split <;> rfl

theorem startCore_nextId (cfg : Config) (st : State) (i : Nat) (c : Client) :
    (startCore cfg st i c).nextId = st.nextId := by
  unfold startCore
  dsimp only
  split <;> rfl

theorem stopCore_clients (st : State) (i : Nat) :
    (stopCore st i).clients =
      st.clients.map (fun d => if d.id = i then { d with active := false } else d) := by
  unfold stopCore
  dsimp only
  split <;> rfl

theorem stopCore_registry (st : State) (i : Nat) :
    (stopCore st i).registry = st.registry.erase i := by
  unfold stopCore
  dsimp only
  split <;> rfl

theorem stopCore_nextId (st : State) (i : Nat) :
    (stopCore st i).nextId = st.nextId := by
  unfold stopCore
  dsimp only
  split <;> rfl

theorem WF_map_clients (st : State) (f : Client → Client)
    (hid : ∀ c, (f c).id = c.id) (hact : ∀ c, (f c).active = c.active)
    (hrb : ∀ c, c.remaining_ticks ≤ c.budget → (f c).remaining_ticks ≤ (f c).budget)
    (hwf : WF st) : WF { st with clients := st.clients.map f } := by
  obtain ⟨h1, h2, h3, h4, h5, h6⟩ := hwf
  refine ⟨?_, ?_, h3, ?_, ?_, ?_⟩
  · intro x hx
    obtain ⟨d, hd, rfl⟩ := List.mem_map.mp hx
    rw [hid]
    exact h1 d hd
  · dsimp only
    rw [List.map_map]
    have hcomp : (Client.id ∘ f) = Client.id := funext hid
    rw [hcomp]
    exact h2
  · intro j hj
    obtain ⟨d, hd, hdi, hdact⟩ := h4 j hj
    exact ⟨f d, List.mem_map_of_mem f hd, by rw [hid, hdi], by rw [hact, hdact]⟩
  · intro x hx hxact
    obtain ⟨d, hd, rfl⟩ := List.mem_map.mp hx
    rw [hid]
    rw [hact] at hxact
    exact h5 d hd hxact
  · intro x hx
    obtain ⟨d, hd, rfl⟩ := List.mem_map.mp hx
    exact hrb d (h6 d hd)

theorem WF_kick (st : State) (i : Nat) (hwf : WF st) : WF (kick st i) := by
  unfold kick
  exact WF_map_clients st _
    (fun c => by split <;> rfl)
    (fun c => by split <;> rfl)
    (fun c h => by split <;> simp_all) hwf

theorem WF_process (st : State) (hwf : WF st) : WF (process st).1 := by
  unfold process
  exact WF_map_clients st _
    (fun c => by split <;> first | rfl | simp [tickClient_eq])
    (fun c => by split <;> first | rfl | simp [tickClient_eq])
    (fun c h => by split <;> first | exact h | simp [tickClient_eq]; omega) hwf

theorem WF_construct (cfg : Config) (st : State) (t : Nat) (n : Option String) (st' : State)
    (hwf : WF st)
    (h : construct cfg st t n = Outcome.ok st' ∨ construct cfg st t n = Outcome.configError st') :
    WF st' := by
  unfold construct at h
  by_cases hcond : t < cfg.hwMin ∨ cfg.hwMax < t
  · rw [if_pos hcond] at h
    rcases h with h | h
    · cases h
    · cases h
      exact hwf
  · rw [if_neg hcond] at h
    rcases h with h | h
    · cases h
      obtain ⟨h1, h2, h3, h4, h5, h6⟩ := hwf
      refine ⟨?_, ?_, h3, ?_, ?_, ?_⟩
      · intro x hx
        rcases List.mem_append.mp hx with hx | hx
        · exact Nat.lt_succ_of_lt (h1 x hx)
        · simp only [List.mem_singleton] at hx
          rw [hx]
          exact Nat.lt_succ_self _
      · rw [List.map_append, List.nodup_append]
        refine ⟨h2, List.nodup_singleton _, ?_⟩
        intro a ha hb
        obtain ⟨d, hd, hdi⟩ := List.mem_map.mp ha
        simp only [List.map_cons, List.map_nil, List.mem_singleton] at hb
        have := h1 d hd
        omega
      · intro j hj
        obtain ⟨d, hd, hdi, hdact⟩ := h4 j hj
        exact ⟨d, List.mem_append_left _ hd, hdi, hdact⟩
      · intro x hx hxact
        rcases List.mem_append.mp hx with hx | hx
        · exact h5 x hx hxact
        · simp only [List.mem_singleton] at hx
          rw [hx] at hxact
          cases hxact
      · intro x hx
        rcases List.mem_append.mp hx with hx | hx
        · exact h6 x hx
        · simp only [List.mem_singleton] at hx
          rw [hx]
    · cases h

theorem WF_startCore (cfg : Config) (st : State) (i : Nat) (c : Client)
    (hwf : WF st) (hc : c ∈ st.clients) (hci : c.id = i) (hact : c.active = false) :
    WF (startCore cfg st i c) := by
  obtain ⟨h1, h2, h3, h4, h5, h6⟩ := hwf
  have hureg : i ∉ st.registry := by
    intro hi
    obtain ⟨d, hd, hdi, hdact⟩ := h4 i hi
    have hdc : d = c := List.inj_on_of_nodup_map h2 hd hc (by rw [hdi, hci])
    rw [hdc] at hdact
    rw [hdact] at hact
    cases hact
  refine ⟨?_, ?_, ?_, ?_, ?_, ?_⟩
  · rw [startCore_clients, startCore_nextId]
    intro x hx
    obtain ⟨d, hd, rfl⟩ := List.mem_map.mp hx
    have hlt := h1 d hd
    split <;> simpa using hlt
  · rw [startCore_clients, List.map_map]
    have hcomp : (Client.id ∘ fun d =>
        if d.id = i then
          { d with active := true, budget := budgetOf cfg c.timeout,
                   remaining_ticks := budgetOf cfg c.timeout }
        else d) = Client.id := by
      funext d
      dsimp only [Function.comp]
      split <;> rfl
    rw [hcomp]
    exact h2
  · rw [startCore_registry]
    exact List.nodup_cons.mpr ⟨hureg, h3⟩
  · rw [startCore_clients, startCore_registry]
    intro j hj
    rcases List.mem_cons.mp hj with rfl | hj'
    · exact ⟨_, List.mem_map_of_mem _ hc, by simp [hci], by simp [hci]⟩
    · obtain ⟨d, hd, hdi, hdact⟩ := h4 j hj'
      have hdne : d.id ≠ i := by
        intro hdi2
        have hdc : d = c := List.inj_on_of_nodup_map h2 hd hc (by rw [hdi2, hci])
        rw [hdc] at hdact
        rw [hdact] at hact
        cases hact
      exact ⟨d, List.mem_map.mpr ⟨d, hd, by simp [hdne]⟩, hdi, hdact⟩
  · rw [startCore_clients, startCore_registry]
    intro x hx hxact
    obtain ⟨d, hd, rfl⟩ := List.mem_map.mp hx
    by_cases hdi : d.id = i
    · simp [hdi]
    · have hfd : (if d.id = i then
          { d with active := true, budget := budgetOf cfg c.timeout,
                   remaining_ticks := budgetOf cfg c.timeout }
        else d) = d := by simp [hdi]
      rw [hfd] at hxact ⊢
      exact List.mem_cons_of_mem _ (h5 d hd hxact)
  · rw [startCore_clients]
    intro x hx
    obtain ⟨d, hd, rfl⟩ := List.mem_map.mp hx
    split
    · simp
    · exact h6 d hd

theorem WF_start (cfg : Config) (st : State) (i : Nat) (st' : State)
    (hwf : WF st) (h : start cfg st i = Outcome.ok st') : WF st' := by
  unfold start at h
  cases hfind : st.lookup i with
  | none =>
    rw [hfind] at h
    cases h
  | some c =>
    rw [hfind] at h
    dsimp only at h
    by_cases hact : c.active = true
    · rw [if_pos hact] at h
      cases h
    · rw [if_neg hact] at h
      cases h
      obtain ⟨hc, hci⟩ := lookup_some st i c hfind
      exact WF_startCore cfg st i c ⟨hwf.1, hwf.2.1, hwf.2.2.1, hwf.2.2.2.1, hwf.2.2.2.2.1, hwf.2.2.2.2.2⟩ hc hci (by simpa using hact)

theorem WF_stopCore (st : State) (i : Nat) (hwf : WF st) : WF (stopCore st i) := by
  obtain ⟨h1, h2, h3, h4, h5, h6⟩ := hwf
  refine ⟨?_, ?_, ?_, ?_, ?_, ?_⟩
  · rw [stopCore_clients, stopCore_nextId]
    intro x hx
    obtain ⟨d, hd, rfl⟩ := List.mem_map.mp hx
    have hlt := h1 d hd
    split <;> simpa using hlt
  · rw [stopCore_clients, List.map_map]
    have hcomp : (Client.id ∘ fun d => if d.id = i then { d with active := false } else d)
        = Client.id := by
      funext d
      dsimp only [Function.comp]
      split <;> rfl
    rw [hcomp]
    exact h2
  · rw [stopCore_registry]
    exact h3.erase i
  · rw [stopCore_clients, stopCore_registry]
    intro j hj
    have hjne : j ≠ i := (h3.mem_erase_iff.mp hj).1
    have hjmem : j ∈ st.registry := List.mem_of_mem_erase hj
    obtain ⟨d, hd, hdi, hdact⟩ := h4 j hjmem
    have hdne : d.id ≠ i := by rw [hdi]; exact hjne
    exact ⟨d, List.mem_map.mpr ⟨d, hd, by simp [hdne]⟩, hdi, hdact⟩
  · rw [stopCore_clients, stopCore_registry]
    intro x hx hxact
    obtain ⟨d, hd, rfl⟩ := List.mem_map.mp hx
    by_cases hdi : d.id = i
    · simp [hdi] at hxact
    · have hfd : (if d.id = i then { d with active := false } else d) = d := by simp [hdi]
      rw [hfd] at hxact ⊢
      exact (List.mem_erase_of_ne hdi).mpr (h5 d hd hxact)
  · rw [stopCore_clients]
    intro x hx
    obtain ⟨d, hd, rfl⟩ := List.mem_map.mp hx
    split
    · exact h6 d hd
    · exact h6 d hd

theorem WF_stop (st : State) (i : Nat) (st' : State)
    (hwf : WF st) (h : stop st i = Outcome.ok st') : WF st' := by
  unfold stop at h
  cases hfind : st.lookup i with
  | none =>
    rw [hfind] at h
    cases h
  | some c =>
    rw [hfind] at h
    dsimp only at h
    by_cases hact : c.active = true
    · rw [if_pos hact] at h
      cases h
      exact WF_stopCore st i hwf
    · rw [if_neg hact] at h
      cases h

theorem WF_destroyRecord (st : State) (i : Nat) (hwf : WF st) (hireg : i ∉ st.registry) :
    WF (destroyRecord st i) := by
  obtain ⟨h1, h2, h3, h4, h5, h6⟩ := hwf
  have hsub : (st.clients.filter (fun d => d.id != i)).Sublist st.clients :=
    List.filter_sublist _
  refine ⟨?_, ?_, h3, ?_, ?_, ?_⟩
  · intro x hx
    exact h1 x (hsub.subset hx)
  · exact ((hsub.map Client.id).nodup h2)
  · intro j hj
    obtain ⟨d, hd, hdi, hdact⟩ := h4 j hj
    have hdne : d.id ≠ i := by
      rw [hdi]
      intro hji
      rw [hji] at hj
      exact hireg hj
    exact ⟨d, List.mem_filter.mpr ⟨hd, by simpa using hdne⟩, hdi, hdact⟩
  · intro x hx hxact
    exact h5 x (hsub.subset hx) hxact
  · intro x hx
    exact h6 x (hsub.subset hx)

theorem WF_destruct (st : State) (i : Nat) (hwf : WF st) : WF (destruct st i) := by
  unfold destruct
  cases hfind : st.lookup i with
  | none =>
    have hne := lookup_none st i hfind
    have hireg : i ∉ st.registry := by
      intro hi
      obtain ⟨d, hd, hdi, _⟩ := hwf.2.2.2.1 i hi
      exact hne d hd hdi
    exact WF_destroyRecord st i hwf hireg
  | some c =>
    dsimp only
    obtain ⟨hc, hci⟩ := lookup_some st i c hfind
    by_cases hact : c.active = true
    · rw [if_pos hact]
      have hwf2 := WF_stopCore st i hwf
      have hireg : i ∉ (stopCore st i).registry := by
        rw [stopCore_registry]
        intro hi
        exact ((hwf.2.2.1).mem_erase_iff.mp hi).1 rfl
      exact WF_destroyRecord _ i hwf2 hireg
    · rw [if_neg hact]
      have hireg : i ∉ st.registry := by
        intro hi
        obtain ⟨d, hd, hdi, hdact⟩ := hwf.2.2.2.1 i hi
        have hdc : d = c := List.inj_on_of_nodup_map hwf.2.1 hd hc (by rw [hdi, hci])
        rw [hdc] at hdact
        exact hact hdact
      exact WF_destroyRecord st i hwf hireg

theorem start_ne_configError (cfg : Config) (st : State) (i : Nat) (st' : State) :
    start cfg st i ≠ Outcome.configError st' := by
  unfold start
  intro h
  split at h
  · cases h
  · split at h
    · cases h
    · cases h

theorem stop_ne_configError (st : State) (i : Nat) (st' : State) :
    stop st i ≠ Outcome.configError st' := by
  unfold stop
  intro h
  split at h
  · cases h
  · split at h
    · cases h
    · cases h

/-- C4: every public operation (construct — with or without arguments —
start, stop, kick, the destructor, and the periodic process callback)
preserves the state invariant WF: a handle is linked in the registry iff its
active flag is true, no handle is linked twice, and every handle's
remaining_ticks lies in [0, budget]. -/
theorem runOp_preserves_WF (cfg : Config) (st : State) (op : Op) (st' : State)
    (hwf : WF st)
    (h : runOp cfg st op = Outcome.ok st' ∨ runOp cfg st op = Outcome.configError st') :
    WF st' := by
  cases op with
  | construct t n => exact WF_construct cfg st t n st' hwf h
  | constructDefault => exact WF_construct cfg st 1000 none st' hwf h
  | start i =>
    rcases h with h | h
    · exact WF_start cfg st i st' hwf h
    · exact absurd h (start_ne_configError cfg st i st')
  | stop i =>
    rcases h with h | h
    · exact WF_stop st i st' hwf h
    · exact absurd h (stop_ne_configError st i st')
  | kick i =>
    rcases h with h | h
    · cases h
      exact WF_kick st i hwf
    · cases h
  | destruct i =>
    rcases h with h | h
    · cases h
      exact WF_destruct st i hwf
    · cases h
  | tick =>
    rcases h with h | h
    · cases h
      exact WF_process st hwf
    · cases h


theorem start_ok_elim (cfg : Config) (st : State) (j : Nat) (st2 : State)
    (h : start cfg st j = Outcome.ok st2) :
    ∃ c, st.lookup j = some c ∧ c.active = false ∧ st2 = startCore cfg st j c := by
  unfold start at h
  split at h
  · cases h
  · next c hfind =>
    split at h
    · cases h
    · next hact =>
      cases h
      exact ⟨c, hfind, by simpa using hact, rfl⟩

theorem stop_ok_elim (st : State) (i : Nat) (st1 : State)
    (h : stop st i = Outcome.ok st1) :
    (∃ c, st.lookup i = some c ∧ c.active = true) ∧ st1 = stopCore st i := by
  unfold stop at h
  split at h
  · cases h
  · next c hfind =>
    split at h
    · next hact =>
      cases h
      exact ⟨⟨c, hfind, hact⟩, rfl⟩
    · cases h

theorem startCore_arm (cfg : Config) (st : State) (i : Nat) (c : Client)
    (h : st.hwRunning = false) :
    (startCore cfg st i c).hwRunning = true ∧ (startCore cfg st i c).tickerAttached = true ∧
    (startCore cfg st i c).hwStartCount = st.hwStartCount + 1 := by
  simp [startCore, h]

theorem startCore_no_arm (cfg : Config) (st : State) (i : Nat) (c : Client)
    (h : st.hwRunning = true) :
    (startCore cfg st i c).hwRunning = true ∧
    (startCore cfg st i c).hwStartCount = st.hwStartCount := by
  simp [startCore, h]

theorem stopCore_release (st : State) (i : Nat) (h : st.registry.erase i = []) :
    (stopCore st i).registry = [] ∧ (stopCore st i).hwRunning = false ∧
    (stopCore st i).tickerAttached = false ∧
    (stopCore st i).hwStopCount = st.hwStopCount + 1 := by
  simp [stopCore, h]

theorem runStarts_no_arm (cfg : Config) (ids : List Nat) (st st' : State)
    (hrun : st.hwRunning = true)
    (h : runOps cfg st (ids.map Op.start) = Outcome.ok st') :
    st'.hwStartCount = st.hwStartCount ∧ st'.hwRunning = true := by
  induction ids generalizing st with
  | nil =>
    cases h
    exact ⟨rfl, hrun⟩
  | cons i ids ih =>
    simp only [List.map_cons, runOps] at h
    cases hst : runOp cfg st (Op.start i) with
    | ok st1 =>
      rw [hst] at h
      obtain ⟨c, hfind, hact, rfl⟩ := start_ok_elim cfg st i st1 hst
      obtain ⟨hr1, hc1⟩ := startCore_no_arm cfg st i c hrun
      obtain ⟨hc2, hr2⟩ := ih (startCore cfg st i c) hr1 h
      exact ⟨hc2.trans hc1, hr2⟩
    | configError st1 =>
      rw [hst] at h
      cases h
    | fatalAssert =>
      rw [hst] at h
      cases h

/-- C3: for every sequence of start() calls by distinct client handles (no
intervening stop), starting from a state where the hardware watchdog is not
running, the Hardware Watchdog Adapter is armed exactly once: the final
hardware-start count is the initial one plus one, the very first start()
arming and every later start() skipping the arming step. -/
theorem first_start_arms_exactly_once (cfg : Config) (st : State) (ids : List Nat) (st' : State)
    (hnd : ids.Nodup) (hne : ids ≠ []) (hrun : st.hwRunning = false)
    (h : runOps cfg st (ids.map Op.start) = Outcome.ok st') :
    st'.hwStartCount = st.hwStartCount + 1 := by
  cases ids with
  | nil => exact absurd rfl hne
  | cons i ids =>
    simp only [List.map_cons, runOps] at h
    cases hst : runOp cfg st (Op.start i) with
    | ok st1 =>
      rw [hst] at h
      obtain ⟨c, hfind, hact, rfl⟩ := start_ok_elim cfg st i st1 hst
      obtain ⟨hr1, _, hc1⟩ := startCore_arm cfg st i c hrun
      obtain ⟨hc2, _⟩ := runStarts_no_arm cfg ids (startCore cfg st i c) st' hr1 h
      rw [hc2, hc1]
    | configError st1 =>
      rw [hst] at h
      cases h
    | fatalAssert =>
      rw [hst] at h
      cases h

/-- C5: when stop() on the last remaining active client empties the
registry, the hardware watchdog is stopped and the tick source detached; a
subsequent successful start() from another client arms the hardware watchdog
and attaches the tick source again from scratch. -/
theorem last_stop_releases (cfg : Config) (st : State) (i j : Nat) (st1 st2 : State)
    (hreg : st.registry = [i])
    (hstop : stop st i = Outcome.ok st1)
    (hstart : start cfg st1 j = Outcome.ok st2) :
    st1.registry = [] ∧ st1.hwRunning = false ∧ st1.tickerAttached = false ∧
    st1.hwStopCount = st.hwStopCount + 1 ∧
    st2.hwRunning = true ∧ st2.tickerAttached = true ∧
    st2.hwStartCount = st1.hwStartCount + 1 := by
  obtain ⟨_, rfl⟩ := stop_ok_elim st i st1 hstop
  have hre : st.registry.erase i = [] := by
    rw [hreg]
    exact List.erase_cons_head i []
  obtain ⟨hr1, hw1, ht1, hs1⟩ := stopCore_release st i hre
  obtain ⟨c, hfind, hact, rfl⟩ := start_ok_elim cfg (stopCore st i) j st2 hstart
  obtain ⟨hr2, ht2, hs2⟩ := startCore_arm cfg (stopCore st i) j c hw1
  exact ⟨hr1, hw1, ht1, hs1, hr2, ht2, hs2⟩

/-- C6: constructing a client handle with a timeout below the hardware
watchdog's minimum or above its maximum fails with a configuration error
leaving the state exactly unchanged (no registry entry, no hardware touched);
an in-range construction only appends one handle that starts with
active = false, leaving the registry and all hardware state unchanged. -/
theorem construct_validates (cfg : Config) (st : State) (t : Nat) (n : Option String) :
    ((t < cfg.hwMin ∨ cfg.hwMax < t) → construct cfg st t n = Outcome.configError st) ∧
    (cfg.hwMin ≤ t → t ≤ cfg.hwMax → ∃ st' c, construct cfg st t n = Outcome.ok st' ∧
      st'.clients = st.clients ++ [c] ∧ c.active = false ∧ c.timeout = t ∧ c.name = n ∧
      st'.registry = st.registry ∧ st'.hwRunning = st.hwRunning ∧
      st'.tickerAttached = st.tickerAttached ∧ st'.hwStartCount = st.hwStartCount ∧
      st'.hwStopCount = st.hwStopCount) := by
  constructor
  · intro h
    unfold construct
    rw [if_pos h]
  · intro h1 h2
    unfold construct
    rw [if_neg (by omega)]
    exact ⟨_, _, rfl, rfl, rfl, rfl, rfl, rfl, rfl, rfl, rfl, rfl⟩

/-- C7: calling start() on a handle that is already active, or stop() on a
handle that is not active, yields the fatal-assertion outcome — a
programming error, distinct by construction from the recoverable
configuration-error outcome. -/
theorem precondition_violation_fatal (cfg : Config) (st : State) (i : Nat) (c : Client)
    (hfind : st.lookup i = some c) :
    (c.active = true → start cfg st i = Outcome.fatalAssert) ∧
    (c.active = false → stop st i = Outcome.fatalAssert) := by
  constructor
  · intro hact
    unfold start
    rw [hfind]
    simp [hact]
  · intro hact
    unfold stop
    rw [hfind]
    simp [hact]

/-- C8: kick() on an inactive handle leaves the whole state unchanged;
kick() on an active handle sets only that handle's remaining_ticks to its
full budget — the registry, the armed flag, the tick source, the counters and
every other handle's record stay unchanged. -/
theorem kick_frame (st : State) (i : Nat) :
    (kick st i).registry = st.registry ∧
    (kick st i).nextId = st.nextId ∧
    (kick st i).hwRunning = st.hwRunning ∧
    (kick st i).tickerAttached = st.tickerAttached ∧
    (kick st i).hwStartCount = st.hwStartCount ∧
    (kick st i).hwStopCount = st.hwStopCount ∧
    ((∀ c ∈ st.clients, c.id = i → c.active = false) → kick st i = st) ∧
    (∀ c ∈ st.clients, c.id ≠ i ∨ c.active = false → c ∈ (kick st i).clients) ∧
    (∀ c ∈ st.clients, c.id = i → c.active = true →
      { c with remaining_ticks := c.budget } ∈ (kick st i).clients) := by
  refine ⟨rfl, rfl, rfl, rfl, rfl, rfl, ?_, ?_, ?_⟩
  · intro h
    unfold kick
    have hmap : st.clients.map (fun d =>
        if d.id = i ∧ d.active = true then { d with remaining_ticks := d.budget } else d)
        = st.clients.map id := by
      refine List.map_congr_left (fun d hd => ?_)
      by_cases hdi : d.id = i
      · simp [hdi, h d hd hdi]
      · simp [hdi]
    rw [hmap, List.map_id]
  · intro c hc hor
    refine List.mem_map.mpr ⟨c, hc, ?_⟩
    rcases hor with h | h
    · simp [h]
    · simp [h]
  · intro c hc hci hcact
    exact List.mem_map.mpr ⟨c, hc, by simp [hci, hcact]⟩

/-- C9: destroying a handle that is still active behaves as stop() followed
by record removal: the handle is gone from the registry and the client list,
and if it was the last active client the hardware watchdog and the tick
source are released. -/
theorem destruct_active_like_stop (st : State) (i : Nat) (c : Client)
    (hwf : WF st) (hfind : st.lookup i = some c) (hact : c.active = true) :
    destruct st i = destroyRecord (stopCore st i) i ∧
    stop st i = Outcome.ok (stopCore st i) ∧
    i ∉ (destruct st i).registry ∧
    (∀ d ∈ (destruct st i).clients, d.id ≠ i) ∧
    (st.registry = [i] →
      (destruct st i).hwRunning = false ∧ (destruct st i).tickerAttached = false) := by
  have hdes : destruct st i = destroyRecord (stopCore st i) i := by
    unfold destruct
    rw [hfind]
    simp [hact]
  have hstop : stop st i = Outcome.ok (stopCore st i) := by
    unfold stop
    rw [hfind]
    simp [hact]
  refine ⟨hdes, hstop, ?_, ?_, ?_⟩
  · rw [hdes]
    show i ∉ (stopCore st i).registry
    rw [stopCore_registry]
    intro hi
    exact ((hwf.2.2.1).mem_erase_iff.mp hi).1 rfl
  · rw [hdes]
    intro d hd
    have hd2 := List.mem_filter.mp hd
    simpa using hd2.2
  · intro hreg
    rw [hdes]
    have hre : st.registry.erase i = [] := by
      rw [hreg]
      exact List.erase_cons_head i []
    obtain ⟨_, hw1, ht1, _⟩ := stopCore_release st i hre
    exact ⟨hw1, ht1⟩

/-- C10: constructing a VirtualWatchdog with no arguments equals constructing
it with timeout = 1000 and name = NULL (header line 71's default arguments),
and the two agree under every subsequent operation sequence. -/
theorem default_construct_behavior (cfg : Config) (st : State) (ops : List Op) :
    constructDefault cfg st = construct cfg st 1000 none ∧
    runOps cfg st (Op.constructDefault :: ops) = runOps cfg st (Op.construct 1000 none :: ops) :=
  ⟨rfl, rfl⟩





/-- Witness for C2 at a concrete stalled client (budget 3, tick 2). -/
theorem stalled_never_kicked_witness :
    roundKicked (runRounds stStalled schedNone 2) (schedNone 2) = false :=
  stalled_never_kicked stStalled schedNone clientStalled 3 (by decide) (by decide)
    (by decide) (by decide) (fun m => List.not_mem_nil 0) 2 (by decide)

/-- Witness for C3: two clients start in sequence, the adapter arms once. -/
theorem first_start_arms_exactly_once_witness :
    stC3sorted.hwStartCount = stC3.hwStartCount + 1 :=
  first_start_arms_exactly_once cfgA stC3 [0, 1] stC3sorted (by decide) (by decide)
    (by decide) (by decide)

/-- Witness for C4: the invariant holds after a concrete start(). -/
theorem runOp_preserves_WF_witness : WF stC4next :=
  runOp_preserves_WF cfgA stC3 (Op.start 0) stC4next (by decide) (Or.inl (by decide))

/-- Witness for C5 at a concrete last stop followed by a fresh start. -/
theorem last_stop_releases_witness :
    stC5a.registry = [] ∧ stC5a.hwRunning = false ∧ stC5a.tickerAttached = false ∧
    stC5a.hwStopCount = stAB.hwStopCount + 1 ∧
    stC5b.hwRunning = true ∧ stC5b.tickerAttached = true ∧
    stC5b.hwStartCount = stC5a.hwStartCount + 1 :=
  last_stop_releases cfgA stAB 0 1 stC5a stC5b (by decide) (by decide) (by decide)

/-- Witness for C6: timeout 5 is below cfgA's minimum 10, timeout 50 is in
range. -/
theorem construct_validates_witness :
    construct cfgA stEmpty 5 none = Outcome.configError stEmpty ∧
    (∃ st2 c, construct cfgA stEmpty 50 none = Outcome.ok st2 ∧
      st2.clients = stEmpty.clients ++ [c] ∧ c.active = false ∧ c.timeout = 50 ∧
      c.name = none ∧ st2.registry = stEmpty.registry ∧
      st2.hwRunning = stEmpty.hwRunning ∧ st2.tickerAttached = stEmpty.tickerAttached ∧
      st2.hwStartCount = stEmpty.hwStartCount ∧ st2.hwStopCount = stEmpty.hwStopCount) :=
  ⟨(construct_validates cfgA stEmpty 5 none).1 (Or.inl (by decide)),
   (construct_validates cfgA stEmpty 50 none).2 (by decide) (by decide)⟩

/-- Witness for C7: start() on the active client 0 and stop() on the
never-started client 1 both assert fatally. -/
theorem precondition_violation_fatal_witness :
    start cfgA stAB 0 = Outcome.fatalAssert ∧ stop stAB 1 = Outcome.fatalAssert :=
  ⟨(precondition_violation_fatal cfgA stAB 0 clientA0 (by decide)).1 (by decide),
   (precondition_violation_fatal cfgA stAB 1 clientB1 (by decide)).2 (by decide)⟩

/-- Witness for C8: kicking the inactive client 1 is a no-op; kicking the
active client 0 refills its counter. -/
theorem kick_frame_witness :
    kick stAB 1 = stAB ∧
    { clientA0 with remaining_ticks := clientA0.budget } ∈ (kick stAB 0).clients :=
  ⟨(kick_frame stAB 1).2.2.2.2.2.2.1 (by decide),
   (kick_frame stAB 0).2.2.2.2.2.2.2.2 clientA0 (by decide) (by decide) (by decide)⟩

/-- Witness for C9: destroying the last active client releases everything. -/
theorem destruct_active_like_stop_witness :
    destruct stAB 0 = destroyRecord (stopCore stAB 0) 0 ∧
    0 ∉ (destruct stAB 0).registry ∧
    (destruct stAB 0).hwRunning = false ∧ (destruct stAB 0).tickerAttached = false := by
  have h := destruct_active_like_stop stAB 0 clientA0 (by decide) (by decide) (by decide)
  exact ⟨h.1, h.2.2.1, (h.2.2.2.2 (by decide)).1, (h.2.2.2.2 (by decide)).2⟩

end VirtualWatchdog
